import Mathlib

set_option linter.unusedVariables false

/-!
Verification of the voice-channel pool manager in `src/voice.rs` and its
event handler in `src/main.rs` (repository InvalidJoker/BackstubenBot).

The Rust code is shallowly embedded: channel ids are `Nat`, the remote
guild is a `World` (list of channels plus a fresh-id counter supplying the
identifiers the remote create call returns), remote-call fallibility is an
`Env` of success flags, and each handler returns an `Outcome` recording the
mutated pool, the mutated world, the remote create/delete calls issued, the
number of sorter invocations, and whether the Rust function returned `Err`.
-/

namespace BackstubenBot

/-- Embeds `enum VoiceChannelType` from `src/voice.rs`. -/
inductive VoiceChannelType
  | Unlimited
  | Two
  | Three
  | Four
  | Five
deriving DecidableEq, Repr, Fintype

/-- Embeds `VoiceChannelType::identifier` from `src/voice.rs`. -/
def VoiceChannelType.identifier : VoiceChannelType → Char
  | .Unlimited => '∞'
  | .Two => '2'
  | .Three => '3'
  | .Four => '4'
  | .Five => '5'

/-- Embeds `VoiceChannelType::user_limit` from `src/voice.rs`. -/
def VoiceChannelType.user_limit : VoiceChannelType → Option Nat
  | .Unlimited => none
  | .Two => some 2
  | .Three => some 3
  | .Four => some 4
  | .Five => some 5

/-- Embeds `VoiceChannelType::by_identifier` from `src/voice.rs`. -/
def by_identifier (c : Char) : Option VoiceChannelType :=
  if c = '∞' then some .Unlimited
  else if c = '2' then some .Two
  else if c = '3' then some .Three
  else if c = '4' then some .Four
  else if c = '5' then some .Five
  else none

/-- Embeds `VoiceChannelType::all` from `src/voice.rs`. -/
def allTypes : List VoiceChannelType :=
  [.Unlimited, .Two, .Three, .Four, .Five]

/-- Channel kinds relevant to the manager (`ChannelType::Voice` vs anything else). -/
inductive ChannelKind
  | voice
  | text
deriving DecidableEq, Repr

/-- A remote guild channel as the manager observes it: the fields of the
serenity `GuildChannel` the code reads (`id`, `name`, `kind`, `parent_id`,
`user_limit`) plus the response the environment would give to the
`members(&ctx.cache)` occupancy query for this channel (`none` = the query
fails, `some ms` = it returns member list `ms`). -/
structure RChannel where
  id : Nat
  name : String
  kind : ChannelKind
  parent_id : Option Nat
  user_limit : Option Nat
  members : Option (List Nat)
deriving DecidableEq, Repr

/-- The remote guild: its channels and the next identifier the remote
create call will assign (Discord snowflakes are fresh; `nextId` models
that guarantee). -/
structure World where
  channels : List RChannel
  nextId : Nat
deriving DecidableEq, Repr

/-- Success flags for the fallible remote calls a single handler
invocation can make. -/
structure Env where
  createOk : Bool
  deleteOk : Bool
  listOk : Bool
  reorderOk : Bool
deriving DecidableEq, Repr

/-- The all-success environment. -/
def Env.ok : Env := ⟨true, true, true, true⟩

/-- Embeds `channel_id.to_channel(&ctx.http).await?.guild()`: resolve a
channel id against the remote guild. -/
def World.find (w : World) (cid : Nat) : Option RChannel :=
  w.channels.find? (fun c => c.id == cid)

/-- Embeds `self.channel_cache`: the map from tier to its ordered list of
channel ids.  The Rust `HashMap` treats a missing key and an empty vector
identically everywhere (`cloned().unwrap_or_default()`,
`entry(..).or_insert_with(Vec::new)`), so a total map with default `[]`
is observationally the same; each tier is a field. -/
structure Pool where
  unlimited : List Nat
  two : List Nat
  three : List Nat
  four : List Nat
  five : List Nat
deriving DecidableEq, Repr

/-- The empty cache `HashMap::new()`. -/
def Pool.empty : Pool := ⟨[], [], [], [], []⟩

/-- Read one tier's list. -/
def Pool.get (p : Pool) : VoiceChannelType → List Nat
  | .Unlimited => p.unlimited
  | .Two => p.two
  | .Three => p.three
  | .Four => p.four
  | .Five => p.five

/-- Replace one tier's list. -/
def Pool.set (p : Pool) : VoiceChannelType → List Nat → Pool
  | .Unlimited, l => { p with unlimited := l }
  | .Two, l => { p with two := l }
  | .Three, l => { p with three := l }
  | .Four, l => { p with four := l }
  | .Five, l => { p with five := l }

/-- Embeds `cache.entry(t).or_insert_with(Vec::new).push(id)`. -/
def Pool.push (p : Pool) (t : VoiceChannelType) (id : Nat) : Pool :=
  p.set t (p.get t ++ [id])

/-- Embeds `channel.name.chars().last().unwrap_or_default()` (the Rust
default `char` is U+0000). -/
def lastChar (s : String) : Char :=
  (s.toList.getLast?).getD (Char.ofNat 0)

/-- The name `format!("🔊voice {}", channel_type.identifier())` built by
`create_channel`. -/
def channelName (t : VoiceChannelType) : String :=
  "🔊voice " ++ t.identifier.toString

/-- The channel the remote create call returns for
`VoiceChannelManager::create_channel`: voice kind, parented to the
category, user limit from the tier (absent for Unlimited), fresh id,
initially empty. -/
def mkChannel (cat : Nat) (t : VoiceChannelType) (fresh : Nat) : RChannel :=
  { id := fresh
    name := channelName t
    kind := .voice
    parent_id := some cat
    user_limit := t.user_limit
    members := some [] }

/-- Result of one manager entry point: the pool and world afterwards, the
ids passed to remote create and delete calls, how many times
`sort_channels` was invoked, and whether the Rust function returned
`Err`.  Rust mutations persist even on a later `Err`, so state travels
alongside the error flag. -/
structure Outcome where
  pool : Pool
  world : World
  created : List Nat
  deleted : List Nat
  sorts : Nat
  err : Bool
deriving DecidableEq, Repr

/-- Key used by `sort_channels`: `user_limit.unwrap_or(0)`. -/
def chKey (c : RChannel) : Nat := c.user_limit.getD 0

/-- The filter in `sort_channels`: voice channels parented to the managed
category (no tier-name test appears in the source). -/
def inCategoryVoice (cat : Nat) (chs : List RChannel) : List RChannel :=
  chs.filter (fun c => c.kind == ChannelKind.voice && c.parent_id == some cat)

/-- The stable `sort_by` on `user_limit.unwrap_or(0)` in `sort_channels`
(Rust slice sorts are stable; `List.mergeSort` is its stable
counterpart). -/
def sortedChannels (cat : Nat) (chs : List RChannel) : List RChannel :=
  (inCategoryVoice cat chs).mergeSort (fun a b => decide (chKey a ≤ chKey b))

/-- The `(channel.id, index)` position list `sort_channels` passes to the
bulk `reorder_channels` call. -/
def sortPositions (cat : Nat) (chs : List RChannel) : List (Nat × Nat) :=
  (sortedChannels cat chs).enum.map (fun p => (p.2.id, p.1))

/-- The occupancy scan of `check_joined`: some channel of the tier's list
resolves and its occupancy query reports empty or fails
(`members.map_or(true, |m| m.is_empty())`). -/
def foundEmpty (p : Pool) (w : World) (t : VoiceChannelType) : Bool :=
  (p.get t).any (fun id =>
    match w.find id with
    | none => false
    | some c =>
      match c.members with
      | none => true
      | some ms => ms.isEmpty)

/-- Embeds `VoiceChannelManager::check_joined` from `src/voice.rs`.
Branches, in source order: channel lookup failure propagates `Err`;
unresolved tier glyph is a no-op; a tier already holding ≥ 6 channels is
a no-op; an empty (or unqueryable) existing channel is a no-op; otherwise
one channel is created, appended to the tier's list, and the sorter is
invoked (whose guild-list failure propagates). -/
def check_joined (cat : Nat) (env : Env) (p : Pool) (w : World) (cid : Nat) : Outcome :=
  match w.find cid with
  | none => ⟨p, w, [], [], 0, true⟩
  | some ch =>
    match by_identifier (lastChar ch.name) with
    | none => ⟨p, w, [], [], 0, false⟩
    | some t =>
      if 6 ≤ (p.get t).length then ⟨p, w, [], [], 0, false⟩
      else if foundEmpty p w t then ⟨p, w, [], [], 0, false⟩
      else if env.createOk then
        let nc := mkChannel cat t w.nextId
        ⟨p.set t (p.get t ++ [nc.id]), ⟨w.channels ++ [nc], w.nextId + 1⟩,
          [nc.id], [], 1, !env.listOk⟩
      else ⟨p, w, [], [], 0, true⟩

/-- Embeds `VoiceChannelManager::check_left` from `src/voice.rs`.
Branches, in source order: channel lookup failure propagates `Err`;
unresolved tier glyph is a no-op; a vacated channel whose occupancy query
succeeds non-empty is a no-op (`members.map_or(false, |m| !m.is_empty())`,
so a failed query falls through); if the tier's list has more than one
entry the vacated id is retained out of it and the remote delete is
issued — on delete failure the error is only logged, on success the
sorter runs (whose guild-list failure propagates); a single-entry list is
a no-op. -/
def check_left (cat : Nat) (env : Env) (p : Pool) (w : World) (cid : Nat) : Outcome :=
  match w.find cid with
  | none => ⟨p, w, [], [], 0, true⟩
  | some ch =>
    match by_identifier (lastChar ch.name) with
    | none => ⟨p, w, [], [], 0, false⟩
    | some t =>
      if (match ch.members with
          | none => false
          | some ms => !ms.isEmpty) then ⟨p, w, [], [], 0, false⟩
      else if 1 < (p.get t).length then
        let p' := p.set t ((p.get t).filter (fun id => id != cid))
        if env.deleteOk then
          ⟨p', ⟨w.channels.filter (fun c => c.id != cid), w.nextId⟩,
            [], [cid], 1, !env.listOk⟩
        else ⟨p', w, [], [cid], 0, false⟩
      else ⟨p, w, [], [], 0, false⟩

/-- The body of the first loop of `VoiceChannelManager::initialize`: skip
non-voice channels, read the trailing glyph, and record the channel under
its tier when the glyph resolves. -/
def loadOne (p : Pool) (ch : RChannel) : Pool :=
  if ch.kind = ChannelKind.voice then
    match ch.name.toList.getLast? with
    | none => p
    | some ident =>
      match by_identifier ident with
      | none => p
      | some t => p.push t ch.id
  else p

/-- The first loop of `initialize`: record every existing managed channel
of the category. -/
def loadExisting (p : Pool) (chs : List RChannel) : Pool :=
  chs.foldl loadOne p

/-- The tier a channel is recorded under by `loadOne`, if any. -/
def tierOf (c : RChannel) : Option VoiceChannelType :=
  if c.kind = ChannelKind.voice then (c.name.toList.getLast?).bind by_identifier
  else none

/-- The second loop of `initialize`: for every tier whose recorded list is
missing or empty, create one channel and record it; a create failure
returns `Err` at once (`?`), keeping the mutations made so far.  Returns
the pool, the world, the created ids, and the failure flag. -/
def createMissing (cat : Nat) (env : Env) :
    List VoiceChannelType → Pool → World → List Nat → Pool × World × List Nat × Bool
  | [], p, w, acc => (p, w, acc, false)
  | t :: ts, p, w, acc =>
    if (p.get t).isEmpty then
      if env.createOk then
        let ch := mkChannel cat t w.nextId
        createMissing cat env ts (p.push t ch.id) ⟨w.channels ++ [ch], w.nextId + 1⟩
          (acc ++ [ch.id])
      else (p, w, acc, true)
    else createMissing cat env ts p w acc

/-- Embeds `VoiceChannelManager::initialize` from `src/voice.rs` (named
`bootstrap` here).  In source order: resolve the category channel (`?` /
`ok_or`), list the guild channels (`?`), filter to the category, record
existing managed channels, create one channel per empty tier, then invoke
the sorter (its guild-list call succeeds because listing already did, and
a reorder failure is only logged). -/
def bootstrap (cat : Nat) (env : Env) (p : Pool) (w : World) : Outcome :=
  match w.find cat with
  | none => ⟨p, w, [], [], 0, true⟩
  | some _ =>
    if env.listOk then
      let inCat := w.channels.filter (fun c => c.parent_id == some cat)
      let p1 := loadExisting p inCat
      match createMissing cat env allTypes p1 w [] with
      | (p2, w2, created, failed) =>
        if failed then ⟨p2, w2, created, [], 0, true⟩
        else ⟨p2, w2, created, [], 1, false⟩
    else ⟨p, w, [], [], 0, true⟩

/-- Embeds `Handler::ready` from `src/main.rs`: run the bootstrap on an
empty cache; a failure is only logged (`eprintln!`), the handler keeps
running with whatever partial state resulted. -/
def onReady (cat : Nat) (env : Env) (w : World) : Outcome :=
  bootstrap cat env Pool.empty w

/-- An event-handler outcome that did nothing. -/
def noopOutcome (p : Pool) (w : World) : Outcome := ⟨p, w, [], [], 0, false⟩

/-- Embeds `Handler::voice_state_update` from `src/main.rs`: `check_joined`
on the joined channel (if any), then `check_left` on the left channel when
it differs from the joined one; errors of either are only logged. -/
def voiceStateUpdate (cat : Nat) (env : Env) (p : Pool) (w : World)
    (joined left : Option Nat) : Outcome :=
  let o1 :=
    match joined with
    | some cid => check_joined cat env p w cid
    | none => noopOutcome p w
  let o2 :=
    match left with
    | some cid =>
      if joined = some cid then noopOutcome o1.pool o1.world
      else check_left cat env o1.pool o1.world cid
    | none => noopOutcome o1.pool o1.world
  ⟨o2.pool, o2.world, o1.created ++ o2.created, o1.deleted ++ o2.deleted,
    o1.sorts + o2.sorts, o1.err || o2.err⟩

/-- One externally observable event while the bot runs: a join handled by
`check_joined`, a leave handled by `check_left` (each under some remote
environment), or an external change to a channel's live occupancy (users
moving around, or the cache becoming unable to answer). -/
inductive Ev
  | join (env : Env) (cid : Nat)
  | leave (env : Env) (cid : Nat)
  | occ (cid : Nat) (m : Option (List Nat))
deriving Repr

/-- Update the occupancy-query response of one channel. -/
def setOcc (w : World) (cid : Nat) (m : Option (List Nat)) : World :=
  ⟨w.channels.map (fun c => if c.id = cid then { c with members := m } else c), w.nextId⟩

/-- Apply one event to the pool and the world. -/
def stepEv (cat : Nat) : Pool × World → Ev → Pool × World
  | (p, w), .join env cid =>
    let o := check_joined cat env p w cid
    (o.pool, o.world)
  | (p, w), .leave env cid =>
    let o := check_left cat env p w cid
    (o.pool, o.world)
  | (p, w), .occ cid m => (p, setOcc w cid m)

/-- Run a sequence of events. -/
def runEvs (cat : Nat) (pw : Pool × World) (evs : List Ev) : Pool × World :=
  evs.foldl (stepEv cat) pw

/-! Basic lemmas about the pool map. -/

theorem Pool.get_set_same (p : Pool) (t : VoiceChannelType) (l : List Nat) :
    (p.set t l).get t = l := by
  cases t <;> rfl

theorem Pool.get_set_ne (p : Pool) {t t' : VoiceChannelType} (h : t ≠ t') (l : List Nat) :
    (p.set t l).get t' = p.get t' := by
  cases t <;> cases t' <;> first | rfl | exact absurd rfl h

theorem Pool.set_get_self (p : Pool) (t : VoiceChannelType) : p.set t (p.get t) = p := by
  cases t <;> rfl

theorem Pool.empty_get (t : VoiceChannelType) : Pool.empty.get t = [] := by
  cases t <;> rfl

theorem Pool.get_push_same (p : Pool) (t : VoiceChannelType) (id : Nat) :
    (p.push t id).get t = p.get t ++ [id] := by
  unfold Pool.push; exact p.get_set_same t _

theorem Pool.get_push_ne (p : Pool) {t t' : VoiceChannelType} (h : t ≠ t') (id : Nat) :
    (p.push t id).get t' = p.get t' := by
  unfold Pool.push; exact p.get_set_ne h _

/-- The freshly created channel carries its tier's glyph as final name
character, so `loadOne` and the event handlers classify it back to the
same tier. -/
theorem tierOf_mkChannel (cat : Nat) (t : VoiceChannelType) (i : Nat) :
    tierOf (mkChannel cat t i) = some t := by
  cases t <;> rfl

theorem lastChar_mkChannel (cat : Nat) (t : VoiceChannelType) (i : Nat) :
    lastChar (mkChannel cat t i).name = t.identifier := by
  cases t <;> rfl

@[simp] theorem mkChannel_id (cat : Nat) (t : VoiceChannelType) (i : Nat) :
    (mkChannel cat t i).id = i := rfl

/-! Claim C4: the last channel of a tier is never deleted. -/

/-- Claim C4: for every leave event on a managed channel, when the tier's
list in the pool contains exactly one channel, `check_left` deletes
nothing and leaves the pool and the remote channel set unchanged,
regardless of the channel's occupancy. -/
theorem check_left_single_is_noop (cat : Nat) (env : Env) (p : Pool) (w : World)
    (cid : Nat) (ch : RChannel) (t : VoiceChannelType)
    (hfind : w.find cid = some ch)
    (htier : by_identifier (lastChar ch.name) = some t)
    (hlen : (p.get t).length = 1) :
    check_left cat env p w cid = noopOutcome p w := by
  have h1 : ¬ 1 < (p.get t).length := by omega
  simp only [check_left, hfind, htier, if_neg h1]
  split <;> rfl

/-- Witness for claim C4 at a concrete input: one tracked tier-2 channel,
empty, whose last member just left; nothing is deleted. -/
theorem check_left_single_is_noop_witness :
    ((⟨[⟨1, "🔊voice 2", .voice, some 9, none, some []⟩], 10⟩ : World).find 1 =
      some ⟨1, "🔊voice 2", .voice, some 9, none, some []⟩) ∧
    (by_identifier (lastChar "🔊voice 2") = some .Two) ∧
    (((⟨[], [1], [], [], []⟩ : Pool).get .Two).length = 1) ∧
    check_left 9 Env.ok ⟨[], [1], [], [], []⟩ ⟨[⟨1, "🔊voice 2", .voice, some 9, none, some []⟩], 10⟩ 1 =
      noopOutcome ⟨[], [1], [], [], []⟩ ⟨[⟨1, "🔊voice 2", .voice, some 9, none, some []⟩], 10⟩ :=
  ⟨by decide, by decide, by decide,
    check_left_single_is_noop 9 Env.ok ⟨[], [1], [], [], []⟩
      ⟨[⟨1, "🔊voice 2", .voice, some 9, none, some []⟩], 10⟩ 1
      ⟨1, "🔊voice 2", .voice, some 9, none, some []⟩ .Two
      (by decide) (by decide) (by decide)⟩

/-! Claim C10: `check_left` can delete a channel the pool does not track. -/

/-- Claim C10: if the vacated channel's name resolves to a tier, the
channel's occupancy query reports it empty, and the tier's list has more
than one entry but does not contain the vacated id, `check_left` still
issues the remote delete while the tier's list is unchanged (the retain
step removes nothing). -/
theorem check_left_deletes_untracked (cat : Nat) (env : Env) (p : Pool) (w : World)
    (cid : Nat) (ch : RChannel) (t : VoiceChannelType)
    (hfind : w.find cid = some ch)
    (htier : by_identifier (lastChar ch.name) = some t)
    (hemp : ch.members = some [])
    (hlen : 1 < (p.get t).length)
    (hmem : cid ∉ p.get t) :
    (check_left cat env p w cid).deleted = [cid] ∧ (check_left cat env p w cid).pool = p := by
  have hfilter : (p.get t).filter (fun id => id != cid) = p.get t := by
    refine List.filter_eq_self.mpr (fun a ha => ?_)
    simp only [bne_iff_ne, ne_eq, decide_eq_true_eq]
    exact fun e => hmem (e ▸ ha)
  simp only [check_left, hfind, htier, hemp, List.isEmpty_nil, Bool.not_true,
    Bool.false_eq_true, if_false, if_pos hlen, hfilter, Pool.set_get_self]
  cases env.deleteOk <;> simp

/-- Witness for claim C10 at a concrete input: empty tier-2 channel id 1
is not in the tier-2 list `[2, 3]`; the delete is still issued and the
pool is untouched. -/
theorem check_left_deletes_untracked_witness :
    ((⟨[⟨1, "🔊voice 2", .voice, some 9, none, some []⟩], 10⟩ : World).find 1 =
      some ⟨1, "🔊voice 2", .voice, some 9, none, some []⟩) ∧
    (1 < ((⟨[], [2, 3], [], [], []⟩ : Pool).get .Two).length) ∧
    (1 ∉ (⟨[], [2, 3], [], [], []⟩ : Pool).get .Two) ∧
    ((check_left 9 Env.ok ⟨[], [2, 3], [], [], []⟩
        ⟨[⟨1, "🔊voice 2", .voice, some 9, none, some []⟩], 10⟩ 1).deleted = [1] ∧
     (check_left 9 Env.ok ⟨[], [2, 3], [], [], []⟩
        ⟨[⟨1, "🔊voice 2", .voice, some 9, none, some []⟩], 10⟩ 1).pool =
       ⟨[], [2, 3], [], [], []⟩) :=
  ⟨by decide, by decide, by decide,
    check_left_deletes_untracked 9 Env.ok ⟨[], [2, 3], [], [], []⟩
      ⟨[⟨1, "🔊voice 2", .voice, some 9, none, some []⟩], 10⟩ 1
      ⟨1, "🔊voice 2", .voice, some 9, none, some []⟩ .Two
      (by decide) (by decide) (by decide) (by decide) (by decide)⟩

/-! Claim C3: scale-up behaviour of `check_joined`. -/

/-- Claim C3: for a join event on a channel whose trailing glyph resolves
to a tier, when the tier's list has fewer than 6 entries: if every
resolvable channel in the list reports non-empty occupancy, `check_joined`
creates exactly one new channel of that tier, appends its id to the
tier's list, and invokes the sorter; if some channel in the list reports
empty occupancy, it creates nothing and leaves the pool unchanged. -/
theorem check_joined_scale_up (cat : Nat) (env : Env) (p : Pool) (w : World)
    (cid : Nat) (ch : RChannel) (t : VoiceChannelType)
    (hfind : w.find cid = some ch)
    (htier : by_identifier (lastChar ch.name) = some t)
    (hlen : (p.get t).length < 6)
    (hcr : env.createOk = true) :
    ((∀ id ∈ p.get t, ∀ c, w.find id = some c → ∃ ms, c.members = some ms ∧ ms ≠ []) →
      check_joined cat env p w cid =
        ⟨p.set t (p.get t ++ [w.nextId]),
         ⟨w.channels ++ [mkChannel cat t w.nextId], w.nextId + 1⟩,
         [w.nextId], [], 1, !env.listOk⟩ ∧
      tierOf (mkChannel cat t w.nextId) = some t) ∧
    ((∃ id ∈ p.get t, ∃ c, w.find id = some c ∧ c.members = some []) →
      (check_joined cat env p w cid).created = [] ∧
      (check_joined cat env p w cid).pool = p) := by
  have h6 : ¬ 6 ≤ (p.get t).length := by omega
  constructor
  · intro hall
    have hfe : foundEmpty p w t = false := by
      unfold foundEmpty
      rw [List.any_eq_false]
      intro id hid
      cases hc : w.find id with
      | none => simp
      | some c =>
        obtain ⟨ms, hms, hne⟩ := hall id hid c hc
        simp [hms, hne]
    simp only [check_joined, hfind, htier, if_neg h6, hfe, Bool.false_eq_true, if_false, hcr,
      if_true]
    exact ⟨rfl, tierOf_mkChannel cat t w.nextId⟩
  · rintro ⟨id, hid, c, hc, hms⟩
    have hfe : foundEmpty p w t = true := by
      unfold foundEmpty
      rw [List.any_eq_true]
      exact ⟨id, hid, by simp [hc, hms]⟩
    simp [check_joined, hfind, htier, if_neg h6, hfe]

/-- Witness for claim C3 at concrete inputs: with one fully occupied
tier-2 channel a join creates a second one; with an empty spare a join is
a no-op. -/
theorem check_joined_scale_up_witness :
    (((⟨[⟨1, "🔊voice 2", .voice, some 9, some 2, some [7, 8]⟩], 10⟩ : World).find 1 =
        some ⟨1, "🔊voice 2", .voice, some 9, some 2, some [7, 8]⟩) ∧
      check_joined 9 Env.ok ⟨[], [1], [], [], []⟩
          ⟨[⟨1, "🔊voice 2", .voice, some 9, some 2, some [7, 8]⟩], 10⟩ 1 =
        ⟨(⟨[], [1], [], [], []⟩ : Pool).set .Two ([1] ++ [10]),
         ⟨[⟨1, "🔊voice 2", .voice, some 9, some 2, some [7, 8]⟩] ++ [mkChannel 9 .Two 10],
          11⟩, [10], [], 1, false⟩) ∧
    ((check_joined 9 Env.ok ⟨[], [1], [], [], []⟩
        ⟨[⟨1, "🔊voice 2", .voice, some 9, some 2, some []⟩], 10⟩ 1).created = [] ∧
      (check_joined 9 Env.ok ⟨[], [1], [], [], []⟩
        ⟨[⟨1, "🔊voice 2", .voice, some 9, some 2, some []⟩], 10⟩ 1).pool =
        ⟨[], [1], [], [], []⟩) := by
  constructor
  · refine ⟨by decide, ?_⟩
    have h := (check_joined_scale_up 9 Env.ok ⟨[], [1], [], [], []⟩
      ⟨[⟨1, "🔊voice 2", .voice, some 9, some 2, some [7, 8]⟩], 10⟩ 1
      ⟨1, "🔊voice 2", .voice, some 9, some 2, some [7, 8]⟩ .Two
      (by decide) (by decide) (by decide) (by decide)).1 (by decide)
    exact h.1
  · exact (check_joined_scale_up 9 Env.ok ⟨[], [1], [], [], []⟩
      ⟨[⟨1, "🔊voice 2", .voice, some 9, some 2, some []⟩], 10⟩ 1
      ⟨1, "🔊voice 2", .voice, some 9, some 2, some []⟩ .Two
      (by decide) (by decide) (by decide) (by decide)).2
      ⟨1, by decide, ⟨1, "🔊voice 2", .voice, some 9, some 2, some []⟩, by decide, by decide⟩

/-! Claim C6: behaviour when the occupancy query fails. -/

/-- Counterexample to claim C6: channel 1 is a tracked tier-2 channel
whose occupancy query fails (`members = none`), yet `check_left` does not
abort — it proceeds, removes the id from the pool, and issues the remote
delete.  A remote channel is deleted as a consequence of the failed
query, contradicting the claim. -/
theorem claim_c6_counterexample :
    ((⟨[⟨1, "🔊voice 2", .voice, some 9, none, none⟩], 10⟩ : World).find 1 =
      some ⟨1, "🔊voice 2", .voice, some 9, none, none⟩) ∧
    (check_left 9 Env.ok ⟨[], [1, 2], [], [], []⟩
        ⟨[⟨1, "🔊voice 2", .voice, some 9, none, none⟩], 10⟩ 1).deleted = [1] ∧
    (check_left 9 Env.ok ⟨[], [1, 2], [], [], []⟩
        ⟨[⟨1, "🔊voice 2", .voice, some 9, none, none⟩], 10⟩ 1).pool =
      ⟨[], [2], [], [], []⟩ ∧
    (check_left 9 Env.ok ⟨[], [1, 2], [], [], []⟩
        ⟨[⟨1, "🔊voice 2", .voice, some 9, none, none⟩], 10⟩ 1).err = false := by
  decide

/-- Claim C6 as amended: a failed get-members query never aborts the
handler.  In `check_joined` the failure makes the scan treat that listed
channel as empty, so no channel is created and the pool is unchanged; in
`check_left` the failure makes the vacated channel count as empty, so
when the tier's list has more than one entry the handler proceeds to
remove the id and issue the remote delete. -/
theorem failed_members_query_behaviour (cat : Nat) (env : Env) (p : Pool) (w : World)
    (cid : Nat) (ch : RChannel) (t : VoiceChannelType)
    (hfind : w.find cid = some ch)
    (htier : by_identifier (lastChar ch.name) = some t) :
    ((∃ id ∈ p.get t, ∃ c, w.find id = some c ∧ c.members = none) →
      (check_joined cat env p w cid).created = [] ∧
      (check_joined cat env p w cid).pool = p) ∧
    (ch.members = none → 1 < (p.get t).length →
      (check_left cat env p w cid).deleted = [cid] ∧
      (check_left cat env p w cid).pool = p.set t ((p.get t).filter (fun id => id != cid))) := by
  constructor
  · rintro ⟨id, hid, c, hc, hms⟩
    have hfe : foundEmpty p w t = true := by
      unfold foundEmpty
      rw [List.any_eq_true]
      exact ⟨id, hid, by simp [hc, hms]⟩
    by_cases h6 : 6 ≤ (p.get t).length
    · simp [check_joined, hfind, htier, if_pos h6]
    · simp [check_joined, hfind, htier, if_neg h6, hfe]
  · intro hms hlen
    simp only [check_left, hfind, htier, hms, Bool.false_eq_true, if_false, if_pos hlen]
    cases env.deleteOk <;> simp

/-- Witness for the amended claim C6 at concrete inputs: a failed query on
a listed channel suppresses creation on join; a failed query on the
vacated channel lets the leave handler delete it. -/
theorem failed_members_query_behaviour_witness :
    (((check_joined 9 Env.ok ⟨[], [1], [], [], []⟩
        ⟨[⟨1, "🔊voice 2", .voice, some 9, none, none⟩], 10⟩ 1).created = [] ∧
      (check_joined 9 Env.ok ⟨[], [1], [], [], []⟩
        ⟨[⟨1, "🔊voice 2", .voice, some 9, none, none⟩], 10⟩ 1).pool =
        ⟨[], [1], [], [], []⟩) ∧
    ((check_left 9 Env.ok ⟨[], [1, 2], [], [], []⟩
        ⟨[⟨1, "🔊voice 2", .voice, some 9, none, none⟩], 10⟩ 1).deleted = [1] ∧
      (check_left 9 Env.ok ⟨[], [1, 2], [], [], []⟩
        ⟨[⟨1, "🔊voice 2", .voice, some 9, none, none⟩], 10⟩ 1).pool =
        (⟨[], [1, 2], [], [], []⟩ : Pool).set .Two
          (((⟨[], [1, 2], [], [], []⟩ : Pool).get .Two).filter (fun id => id != 1)))) :=
  ⟨(failed_members_query_behaviour 9 Env.ok ⟨[], [1], [], [], []⟩
      ⟨[⟨1, "🔊voice 2", .voice, some 9, none, none⟩], 10⟩ 1
      ⟨1, "🔊voice 2", .voice, some 9, none, none⟩ .Two (by decide) (by decide)).1
      ⟨1, by decide, ⟨1, "🔊voice 2", .voice, some 9, none, none⟩, by decide, by decide⟩,
    (failed_members_query_behaviour 9 Env.ok ⟨[], [1, 2], [], [], []⟩
      ⟨[⟨1, "🔊voice 2", .voice, some 9, none, none⟩], 10⟩ 1
      ⟨1, "🔊voice 2", .voice, some 9, none, none⟩ .Two (by decide) (by decide)).2
      (by decide) (by decide)⟩

/-! Claim C2: what happens after a failed bootstrap. -/

/-- Counterexample to claim C2: the category id 9 does not resolve, so the
bootstrap's first remote call fails and `ready` gets an error — but the
event handler in `main.rs` only logs it, and the next join event on the
managed channel 1 is still handled: the pool is mutated and a remote
create (id 50) is issued.  This contradicts the claim that no occupancy
event is handled after a failed bootstrap. -/
theorem claim_c2_counterexample :
    (onReady 9 Env.ok ⟨[⟨1, "🔊voice 2", .voice, some 7, none, some [42]⟩], 50⟩).err = true ∧
    (voiceStateUpdate 9 Env.ok
        (onReady 9 Env.ok ⟨[⟨1, "🔊voice 2", .voice, some 7, none, some [42]⟩], 50⟩).pool
        (onReady 9 Env.ok ⟨[⟨1, "🔊voice 2", .voice, some 7, none, some [42]⟩], 50⟩).world
        (some 1) none).created = [50] ∧
    (voiceStateUpdate 9 Env.ok
        (onReady 9 Env.ok ⟨[⟨1, "🔊voice 2", .voice, some 7, none, some [42]⟩], 50⟩).pool
        (onReady 9 Env.ok ⟨[⟨1, "🔊voice 2", .voice, some 7, none, some [42]⟩], 50⟩).world
        (some 1) none).pool ≠
      (onReady 9 Env.ok ⟨[⟨1, "🔊voice 2", .voice, some 7, none, some [42]⟩], 50⟩).pool := by
  decide

/-- Claim C2 as amended: when the category lookup — the bootstrap's first
remote call — fails, `initialize` does return an error; but the `ready`
handler only logs it and the subsystem keeps handling occupancy events,
so a subsequent join on a managed channel still mutates the pool and
issues a remote create. -/
theorem failed_init_keeps_handling_events (cat : Nat) (env : Env) (w : World)
    (cid : Nat) (ch : RChannel) (t : VoiceChannelType)
    (hcat : w.find cat = none)
    (hfind : w.find cid = some ch)
    (htier : by_identifier (lastChar ch.name) = some t)
    (hcr : env.createOk = true) :
    (onReady cat env w).err = true ∧
    (voiceStateUpdate cat env (onReady cat env w).pool (onReady cat env w).world
        (some cid) none).created = [w.nextId] ∧
    (voiceStateUpdate cat env (onReady cat env w).pool (onReady cat env w).world
        (some cid) none).pool.get t = [w.nextId] := by
  have hready : onReady cat env w = ⟨Pool.empty, w, [], [], 0, true⟩ := by
    simp [onReady, bootstrap, hcat]
  rw [hready]
  have hlen : (Pool.empty.get t).length < 6 := by rw [Pool.empty_get]; decide
  have hall : ∀ id ∈ Pool.empty.get t, ∀ c, w.find id = some c →
      ∃ ms, c.members = some ms ∧ ms ≠ [] := by
    rw [Pool.empty_get]; intro id hid; cases hid
  have hcj := (check_joined_scale_up cat env Pool.empty w cid ch t hfind htier hlen hcr).1 hall
  refine ⟨rfl, ?_, ?_⟩ <;>
    simp [voiceStateUpdate, noopOutcome, hcj.1, Pool.get_set_same, Pool.empty_get]

/-- Witness for the amended claim C2 at a concrete input. -/
theorem failed_init_keeps_handling_events_witness :
    ((⟨[⟨1, "🔊voice 2", .voice, some 7, none, some [42]⟩], 50⟩ : World).find 9 = none) ∧
    (onReady 9 Env.ok ⟨[⟨1, "🔊voice 2", .voice, some 7, none, some [42]⟩], 50⟩).err = true ∧
    (voiceStateUpdate 9 Env.ok
        (onReady 9 Env.ok ⟨[⟨1, "🔊voice 2", .voice, some 7, none, some [42]⟩], 50⟩).pool
        (onReady 9 Env.ok ⟨[⟨1, "🔊voice 2", .voice, some 7, none, some [42]⟩], 50⟩).world
        (some 1) none).created = [50] ∧
    (voiceStateUpdate 9 Env.ok
        (onReady 9 Env.ok ⟨[⟨1, "🔊voice 2", .voice, some 7, none, some [42]⟩], 50⟩).pool
        (onReady 9 Env.ok ⟨[⟨1, "🔊voice 2", .voice, some 7, none, some [42]⟩], 50⟩).world
        (some 1) none).pool.get .Two = [50] := by
  have h := failed_init_keeps_handling_events 9 Env.ok
    ⟨[⟨1, "🔊voice 2", .voice, some 7, none, some [42]⟩], 50⟩ 1
    ⟨1, "🔊voice 2", .voice, some 7, none, some [42]⟩ .Two
    (by decide) (by decide) (by decide) (by decide)
  exact ⟨by decide, h.1, h.2.1, h.2.2⟩

/-! Claim C8: bootstrap on an empty container. -/

/-- Claim C8: running the bootstrap against a container holding no
channels creates exactly 5 channels, one per configured tier in catalog
order, each name carrying the tier's glyph as final character, each with
the tier's capacity limit (absent for Unlimited), each parented to the
container, and each recorded as the sole entry of its tier in the
pool. -/
theorem bootstrap_empty_container (cat : Nat) (env : Env) (w : World) (c : RChannel)
    (hcat : w.find cat = some c)
    (hempty : w.channels.filter (fun ch => ch.parent_id == some cat) = [])
    (hlist : env.listOk = true)
    (hcr : env.createOk = true) :
    bootstrap cat env Pool.empty w =
      ⟨⟨[w.nextId], [w.nextId + 1], [w.nextId + 2], [w.nextId + 3], [w.nextId + 4]⟩,
       ⟨w.channels ++ [mkChannel cat .Unlimited w.nextId, mkChannel cat .Two (w.nextId + 1),
          mkChannel cat .Three (w.nextId + 2), mkChannel cat .Four (w.nextId + 3),
          mkChannel cat .Five (w.nextId + 4)], w.nextId + 5⟩,
       [w.nextId, w.nextId + 1, w.nextId + 2, w.nextId + 3, w.nextId + 4], [], 1, false⟩ ∧
    ∀ t : VoiceChannelType, ∃ i ch,
      (bootstrap cat env Pool.empty w).pool.get t = [i] ∧
      ch ∈ (bootstrap cat env Pool.empty w).world.channels ∧
      ch.id = i ∧ lastChar ch.name = t.identifier ∧ ch.user_limit = t.user_limit ∧
      ch.parent_id = some cat := by
  have hmain : bootstrap cat env Pool.empty w =
      ⟨⟨[w.nextId], [w.nextId + 1], [w.nextId + 2], [w.nextId + 3], [w.nextId + 4]⟩,
       ⟨w.channels ++ [mkChannel cat .Unlimited w.nextId, mkChannel cat .Two (w.nextId + 1),
          mkChannel cat .Three (w.nextId + 2), mkChannel cat .Four (w.nextId + 3),
          mkChannel cat .Five (w.nextId + 4)], w.nextId + 5⟩,
       [w.nextId, w.nextId + 1, w.nextId + 2, w.nextId + 3, w.nextId + 4], [], 1, false⟩ := by
    simp only [bootstrap, hcat, hlist, hempty, if_true, loadExisting, List.foldl_nil, allTypes,
      createMissing, Pool.empty, Pool.get, Pool.push, Pool.set, List.isEmpty_nil, hcr,
      if_true]
    simp [List.append_assoc, mkChannel]
  refine ⟨hmain, fun t => ?_⟩
  rw [hmain]
  cases t
  · exact ⟨w.nextId, mkChannel cat .Unlimited w.nextId, rfl, by simp, rfl,
      lastChar_mkChannel cat .Unlimited w.nextId, rfl, rfl⟩
  · exact ⟨w.nextId + 1, mkChannel cat .Two (w.nextId + 1), rfl, by simp, rfl,
      lastChar_mkChannel cat .Two (w.nextId + 1), rfl, rfl⟩
  · exact ⟨w.nextId + 2, mkChannel cat .Three (w.nextId + 2), rfl, by simp, rfl,
      lastChar_mkChannel cat .Three (w.nextId + 2), rfl, rfl⟩
  · exact ⟨w.nextId + 3, mkChannel cat .Four (w.nextId + 3), rfl, by simp, rfl,
      lastChar_mkChannel cat .Four (w.nextId + 3), rfl, rfl⟩
  · exact ⟨w.nextId + 4, mkChannel cat .Five (w.nextId + 4), rfl, by simp, rfl,
      lastChar_mkChannel cat .Five (w.nextId + 4), rfl, rfl⟩

/-- Witness for claim C8 at a concrete input: a container (id 9) holding
no channels. -/
theorem bootstrap_empty_container_witness :
    ((⟨[⟨9, "cat", .text, none, none, some []⟩], 100⟩ : World).find 9 =
      some ⟨9, "cat", .text, none, none, some []⟩) ∧
    ((⟨[⟨9, "cat", .text, none, none, some []⟩], 100⟩ : World).channels.filter
      (fun ch => ch.parent_id == some 9) = []) ∧
    (bootstrap 9 Env.ok Pool.empty ⟨[⟨9, "cat", .text, none, none, some []⟩], 100⟩ =
      ⟨⟨[100], [101], [102], [103], [104]⟩,
       ⟨[⟨9, "cat", .text, none, none, some []⟩] ++
          [mkChannel 9 .Unlimited 100, mkChannel 9 .Two 101, mkChannel 9 .Three 102,
           mkChannel 9 .Four 103, mkChannel 9 .Five 104], 105⟩,
       [100, 101, 102, 103, 104], [], 1, false⟩ ∧
     ∀ t : VoiceChannelType, ∃ i ch,
       (bootstrap 9 Env.ok Pool.empty
           ⟨[⟨9, "cat", .text, none, none, some []⟩], 100⟩).pool.get t = [i] ∧
       ch ∈ (bootstrap 9 Env.ok Pool.empty
           ⟨[⟨9, "cat", .text, none, none, some []⟩], 100⟩).world.channels ∧
       ch.id = i ∧ lastChar ch.name = t.identifier ∧ ch.user_limit = t.user_limit ∧
       ch.parent_id = some 9) :=
  ⟨by decide, by decide,
    bootstrap_empty_container 9 Env.ok ⟨[⟨9, "cat", .text, none, none, some []⟩], 100⟩
      ⟨9, "cat", .text, none, none, some []⟩ (by decide) (by decide) (by decide) (by decide)⟩

/-! Claim C5: the ordering law of `sort_channels`. -/

/-- Claim C5: the channels `sort_channels` reorders get positions
`0..n-1` (the position list is the enumeration of the sorted channel
list), capacity limits are non-decreasing along that order with an
absent limit treated as key 0, and channels with equal keys keep their
prior relative order (stability: filtering the sorted list at any key
yields exactly the filter of the input list). -/
theorem sort_channels_ordering (cat : Nat) (chs : List RChannel) :
    (sortPositions cat chs).map Prod.snd = List.range (sortedChannels cat chs).length ∧
    (sortedChannels cat chs).Pairwise (fun a b => chKey a ≤ chKey b) ∧
    ∀ k, (sortedChannels cat chs).filter (fun c => chKey c == k) =
      (inCategoryVoice cat chs).filter (fun c => chKey c == k) := by
  have htrans : ∀ (a b c : RChannel), decide (chKey a ≤ chKey b) → decide (chKey b ≤ chKey c) →
      decide (chKey a ≤ chKey c) = true := by
    intro a b c hab hbc
    simp only [decide_eq_true_eq] at hab hbc ⊢
    omega
  have htotal : ∀ (a b : RChannel),
      (decide (chKey a ≤ chKey b) || decide (chKey b ≤ chKey a)) = true := by
    intro a b
    simp only [Bool.or_eq_true, decide_eq_true_eq]
    omega
  refine ⟨?_, ?_, ?_⟩
  · unfold sortPositions
    rw [List.map_map]
    have h : (Prod.snd ∘ fun p : Nat × RChannel => (p.2.id, p.1)) = Prod.fst := rfl
    rw [h, List.enum_map_fst]
  · have h := List.sorted_mergeSort htrans htotal (inCategoryVoice cat chs)
    exact h.imp (fun hab => by simpa using hab)
  · intro k
    have hpair : ((inCategoryVoice cat chs).filter (fun c => chKey c == k)).Pairwise
        (fun a b => decide (chKey a ≤ chKey b)) := by
      apply List.pairwise_of_forall_mem_list
      intro a ha b hb
      have ha' := (List.mem_filter.mp ha).2
      have hb' := (List.mem_filter.mp hb).2
      simp only [beq_iff_eq] at ha' hb'
      simp [ha', hb']
    have hsub : List.Sublist ((inCategoryVoice cat chs).filter (fun c => chKey c == k))
        (sortedChannels cat chs) :=
      List.sublist_mergeSort htrans htotal hpair (List.filter_sublist _)
    have hsub2 : List.Sublist ((inCategoryVoice cat chs).filter (fun c => chKey c == k))
        ((sortedChannels cat chs).filter (fun c => chKey c == k)) := by
      have h1 := hsub.filter (fun c => chKey c == k)
      have h2 : (fun a : RChannel => chKey a == k && (chKey a == k)) =
          fun a : RChannel => chKey a == k := by
        funext a; exact Bool.and_self _
      rwa [List.filter_filter, h2] at h1
    have hperm : List.Perm ((sortedChannels cat chs).filter (fun c => chKey c == k))
        ((inCategoryVoice cat chs).filter (fun c => chKey c == k)) :=
      (List.mergeSort_perm (inCategoryVoice cat chs) _).filter _
    exact (hsub2.eq_of_length hperm.length_eq.symm).symm

/-! Claim C7: which channels `sort_channels` reorders. -/

/-- Counterexample to claim C7: a voice channel named "General" sits in
the managed category; its name resolves to no tier, yet `sort_channels`
includes it in the reorder call.  The reordered set is not restricted to
tier-matching channels. -/
theorem claim_c7_counterexample :
    tierOf ⟨1, "General", .voice, some 9, none, some []⟩ = none ∧
    sortPositions 9 [⟨1, "General", .voice, some 9, none, some []⟩] = [(1, 0)] := by
  refine ⟨by decide, ?_⟩
  have h : sortedChannels 9 [⟨1, "General", .voice, some 9, none, some []⟩] =
      [⟨1, "General", .voice, some 9, none, some []⟩] := by
    unfold sortedChannels inCategoryVoice
    rw [show List.filter
        (fun c => c.kind == ChannelKind.voice && c.parent_id == some 9)
        [(⟨1, "General", .voice, some 9, none, some []⟩ : RChannel)] =
        [⟨1, "General", .voice, some 9, none, some []⟩] from rfl]
    exact List.mergeSort_singleton _
  unfold sortPositions
  rw [h]
  rfl

/-- Claim C7 as amended: the set of channels `sort_channels` assigns
positions to is exactly the set of voice channels in the container — the
trailing-glyph tier test is not consulted, so unmanaged voice channels in
the category are reordered too. -/
theorem sort_covers_all_category_voice (cat : Nat) (chs : List RChannel) :
    List.Perm ((sortPositions cat chs).map Prod.fst)
      ((inCategoryVoice cat chs).map RChannel.id) := by
  unfold sortPositions
  rw [List.map_map]
  have h1 : (Prod.fst ∘ fun p : Nat × RChannel => (p.2.id, p.1)) = RChannel.id ∘ Prod.snd :=
    rfl
  rw [h1, ← List.map_map, List.enum_map_snd]
  exact (List.mergeSort_perm _ _).map _

/-! Pool invariant: the tier lists are duplicate-free, pairwise disjoint,
and contain only identifiers below the world's fresh-id counter. -/

/-- Structural invariant tying a pool to the fresh-id counter `n`. -/
def PoolInv (p : Pool) (n : Nat) : Prop :=
  (∀ t, (p.get t).Nodup) ∧
  (∀ t₁ t₂, t₁ ≠ t₂ → ∀ id, id ∈ p.get t₁ → id ∉ p.get t₂) ∧
  (∀ t, ∀ id ∈ p.get t, id < n)

theorem poolInv_mono {p : Pool} {n m : Nat} (h : PoolInv p n) (hnm : n ≤ m) : PoolInv p m :=
  ⟨h.1, h.2.1, fun t id hid => lt_of_lt_of_le (h.2.2 t id hid) hnm⟩

theorem get_push_cases (p : Pool) (t t' : VoiceChannelType) (id : Nat) :
    (p.push t id).get t' = if t' = t then p.get t ++ [id] else p.get t' := by
  by_cases ht : t' = t
  · subst ht; rw [if_pos rfl, Pool.get_push_same]
  · rw [if_neg ht, Pool.get_push_ne p (fun e => ht e.symm)]

theorem get_set_cases (p : Pool) (t t' : VoiceChannelType) (l : List Nat) :
    (p.set t l).get t' = if t' = t then l else p.get t' := by
  by_cases ht : t' = t
  · subst ht; rw [if_pos rfl, Pool.get_set_same]
  · rw [if_neg ht, Pool.get_set_ne p (fun e => ht e.symm)]

/-- Appending the fresh identifier to one tier preserves the invariant. -/
theorem poolInv_push_fresh {p : Pool} {n : Nat} (h : PoolInv p n) (t : VoiceChannelType) :
    PoolInv (p.push t n) (n + 1) := by
  obtain ⟨hnd, hdisj, hlt⟩ := h
  refine ⟨?_, ?_, ?_⟩
  · intro t'
    rw [get_push_cases]
    split
    · refine (hnd t).append (List.nodup_singleton n) ?_
      intro a ha hb
      rw [List.mem_singleton] at hb
      exact lt_irrefl n (hb ▸ hlt t a ha)
    · exact hnd t'
  · intro t₁ t₂ hne id h1 h2
    rw [get_push_cases] at h1 h2
    by_cases e1 : t₁ = t <;> by_cases e2 : t₂ = t
    · exact hne (e1.trans e2.symm)
    · rw [if_pos e1] at h1
      rw [if_neg e2] at h2
      rcases List.mem_append.mp h1 with h1 | h1
      · exact hdisj t₁ t₂ hne id (by rw [e1]; exact h1) h2
      · rw [List.mem_singleton] at h1
        exact lt_irrefl n (h1 ▸ hlt t₂ id h2)
    · rw [if_neg e1] at h1
      rw [if_pos e2] at h2
      rcases List.mem_append.mp h2 with h2 | h2
      · exact hdisj t₁ t₂ hne id h1 (by rw [e2]; exact h2)
      · rw [List.mem_singleton] at h2
        exact lt_irrefl n (h2 ▸ hlt t₁ id h1)
    · rw [if_neg e1] at h1
      rw [if_neg e2] at h2
      exact hdisj t₁ t₂ hne id h1 h2
  · intro t' id hid
    rw [get_push_cases] at hid
    split at hid
    · rcases List.mem_append.mp hid with h | h
      · exact Nat.lt_succ_of_lt (hlt t id h)
      · rw [List.mem_singleton] at h
        exact lt_of_eq_of_lt h (Nat.lt_succ_self n)
    · exact Nat.lt_succ_of_lt (hlt t' id hid)

/-- Filtering one tier's list preserves the invariant. -/
theorem poolInv_set_filter {p : Pool} {n : Nat} (h : PoolInv p n) (t : VoiceChannelType)
    (f : Nat → Bool) : PoolInv (p.set t ((p.get t).filter f)) n := by
  obtain ⟨hnd, hdisj, hlt⟩ := h
  refine ⟨?_, ?_, ?_⟩
  · intro t'
    rw [get_set_cases]
    split
    · exact (hnd t).filter f
    · exact hnd t'
  · intro t₁ t₂ hne id h1 h2
    rw [get_set_cases] at h1 h2
    by_cases e1 : t₁ = t <;> by_cases e2 : t₂ = t
    · exact hne (e1.trans e2.symm)
    · rw [if_pos e1] at h1
      rw [if_neg e2] at h2
      exact hdisj t₁ t₂ hne id (by rw [e1]; exact List.mem_of_mem_filter h1) h2
    · rw [if_neg e1] at h1
      rw [if_pos e2] at h2
      exact hdisj t₁ t₂ hne id h1 (by rw [e2]; exact List.mem_of_mem_filter h2)
    · rw [if_neg e1] at h1
      rw [if_neg e2] at h2
      exact hdisj t₁ t₂ hne id h1 h2
  · intro t' id hid
    rw [get_set_cases] at hid
    split at hid
    · exact hlt t id (List.mem_of_mem_filter hid)
    · exact hlt t' id hid

/-- In a duplicate-free list with at least two entries, removing one value
leaves at least one entry. -/
theorem filter_ne_length_add_count {l : List Nat} (cid : Nat) :
    (l.filter (fun id => id != cid)).length + l.count cid = l.length := by
  induction l with
  | nil => rfl
  | cons a as ih =>
    by_cases ha : a = cid
    · subst ha
      rw [List.filter_cons_of_neg (by simp), List.count_cons_self]
      simp only [List.length_cons]
      omega
    · rw [List.filter_cons_of_pos (by simp [ha]), List.count_cons_of_ne (by omega)]
      simp only [List.length_cons]
      omega

/-- In a duplicate-free list with at least two entries, removing one value
leaves at least one entry. -/
theorem one_le_length_filter_ne {l : List Nat} (hnd : l.Nodup) (cid : Nat)
    (h : 1 < l.length) : 1 ≤ (l.filter (fun id => id != cid)).length := by
  have hcount : l.count cid ≤ 1 := List.nodup_iff_count_le_one.mp hnd cid
  have hsum := filter_ne_length_add_count (l := l) cid
  omega

/-- Exhaustive description of what `check_joined` does to the pool and
the world: either both are untouched, or one fresh id is appended to a
tier whose list was below the cap. -/
theorem check_joined_cases (cat : Nat) (env : Env) (p : Pool) (w : World) (cid : Nat) :
    ((check_joined cat env p w cid).pool = p ∧ (check_joined cat env p w cid).world = w) ∨
    ∃ t, (p.get t).length < 6 ∧
      (check_joined cat env p w cid).pool = p.push t w.nextId ∧
      (check_joined cat env p w cid).world =
        ⟨w.channels ++ [mkChannel cat t w.nextId], w.nextId + 1⟩ := by
  cases hf : w.find cid with
  | none => exact Or.inl (by simp [check_joined, hf])
  | some ch =>
    cases ht : by_identifier (lastChar ch.name) with
    | none => exact Or.inl (by simp [check_joined, hf, ht])
    | some t =>
      by_cases h6 : 6 ≤ (p.get t).length
      · exact Or.inl (by simp [check_joined, hf, ht, h6])
      · cases hfe : foundEmpty p w t with
        | true => exact Or.inl (by simp [check_joined, hf, ht, h6, hfe])
        | false =>
          cases hcr : env.createOk with
          | false => exact Or.inl (by simp [check_joined, hf, ht, h6, hfe, hcr])
          | true =>
            refine Or.inr ⟨t, by omega, ?_, ?_⟩ <;>
              simp [check_joined, hf, ht, h6, hfe, hcr, Pool.push, mkChannel]

/-- Exhaustive description of what `check_left` does to the pool and the
fresh-id counter: the pool is untouched or one tier's list (which had
more than one entry) is filtered; the counter never changes. -/
theorem check_left_cases (cat : Nat) (env : Env) (p : Pool) (w : World) (cid : Nat) :
    ((check_left cat env p w cid).pool = p ∨
      ∃ t, 1 < (p.get t).length ∧
        (check_left cat env p w cid).pool =
          p.set t ((p.get t).filter (fun id => id != cid))) ∧
    (check_left cat env p w cid).world.nextId = w.nextId := by
  cases hf : w.find cid with
  | none => exact ⟨Or.inl (by simp [check_left, hf]), by simp [check_left, hf]⟩
  | some ch =>
    cases ht : by_identifier (lastChar ch.name) with
    | none => exact ⟨Or.inl (by simp [check_left, hf, ht]), by simp [check_left, hf, ht]⟩
    | some t =>
      cases hocc : (match ch.members with
          | none => false
          | some ms => !ms.isEmpty) with
      | true =>
        exact ⟨Or.inl (by simp [check_left, hf, ht, hocc]), by simp [check_left, hf, ht, hocc]⟩
      | false =>
        by_cases hlen : 1 < (p.get t).length
        · refine ⟨Or.inr ⟨t, hlen, ?_⟩, ?_⟩ <;>
            (cases hdel : env.deleteOk <;> simp [check_left, hf, ht, hocc, hlen, hdel])
        · exact ⟨Or.inl (by simp [check_left, hf, ht, hocc, hlen]),
            by simp [check_left, hf, ht, hocc, hlen]⟩

/-- One event preserves the pool invariant. -/
theorem stepEv_poolInv (cat : Nat) (pw : Pool × World) (e : Ev)
    (h : PoolInv pw.1 pw.2.nextId) :
    PoolInv (stepEv cat pw e).1 (stepEv cat pw e).2.nextId := by
  obtain ⟨p, w⟩ := pw
  cases e with
  | join env cid =>
    rcases check_joined_cases cat env p w cid with ⟨hp, hw⟩ | ⟨t, hlen, hp, hw⟩
    · simpa [stepEv, hp, hw] using h
    · have h2 := poolInv_push_fresh h t
      simpa [stepEv, hp, hw] using h2
  | leave env cid =>
    obtain ⟨hpool, hnext⟩ := check_left_cases cat env p w cid
    rcases hpool with hp | ⟨t, hlen, hp⟩
    · simpa [stepEv, hp, hnext] using h
    · have h2 := poolInv_set_filter h t (fun id => id != cid)
      simpa [stepEv, hp, hnext] using h2
  | occ cid m => simpa [stepEv, setOcc] using h

/-- One event keeps every tier's list length between 1 and 6. -/
theorem stepEv_len_bounds (cat : Nat) (pw : Pool × World) (e : Ev) (t : VoiceChannelType)
    (hinv : PoolInv pw.1 pw.2.nextId)
    (hlow : 1 ≤ (pw.1.get t).length) (hhigh : (pw.1.get t).length ≤ 6) :
    1 ≤ ((stepEv cat pw e).1.get t).length ∧
      ((stepEv cat pw e).1.get t).length ≤ 6 := by
  obtain ⟨p, w⟩ := pw
  cases e with
  | join env cid =>
    rcases check_joined_cases cat env p w cid with ⟨hp, hw⟩ | ⟨t₀, hlen, hp, hw⟩
    · simp only [stepEv, hp]
      exact ⟨hlow, hhigh⟩
    · simp only [stepEv, hp, get_push_cases]
      split
      · next he =>
        rw [List.length_append]
        simp only [List.length_singleton]
        omega
      · exact ⟨hlow, hhigh⟩
  | leave env cid =>
    obtain ⟨hpool, hnext⟩ := check_left_cases cat env p w cid
    rcases hpool with hp | ⟨t₀, hlen, hp⟩
    · simp only [stepEv, hp]
      exact ⟨hlow, hhigh⟩
    · simp only [stepEv, hp, get_set_cases]
      split
      · next he =>
        rw [he] at hhigh
        exact ⟨one_le_length_filter_ne (hinv.1 t₀) cid hlen,
          le_trans (List.length_filter_le _ _) hhigh⟩
      · exact ⟨hlow, hhigh⟩
  | occ cid m => exact ⟨hlow, hhigh⟩

/-- Any event sequence preserves the pool invariant. -/
theorem runEvs_poolInv (cat : Nat) (evs : List Ev) :
    ∀ pw : Pool × World, PoolInv pw.1 pw.2.nextId →
      PoolInv (runEvs cat pw evs).1 (runEvs cat pw evs).2.nextId := by
  induction evs with
  | nil => exact fun pw h => h
  | cons e es ih => exact fun pw h => ih _ (stepEv_poolInv cat pw e h)

/-- Any event sequence keeps tier list lengths between 1 and 6. -/
theorem runEvs_len_bounds (cat : Nat) (evs : List Ev) :
    ∀ pw : Pool × World, PoolInv pw.1 pw.2.nextId →
      ∀ t, 1 ≤ (pw.1.get t).length → (pw.1.get t).length ≤ 6 →
        1 ≤ ((runEvs cat pw evs).1.get t).length ∧
          ((runEvs cat pw evs).1.get t).length ≤ 6 := by
  induction evs with
  | nil => exact fun pw h t h1 h2 => ⟨h1, h2⟩
  | cons e es ih =>
    intro pw h t h1 h2
    obtain ⟨h1', h2'⟩ := stepEv_len_bounds cat pw e t h h1 h2
    exact ih _ (stepEv_poolInv cat pw e h) t h1' h2'

/-- The loop body of the bootstrap's recording phase, expressed through
`tierOf`. -/
theorem loadOne_eq (p : Pool) (ch : RChannel) :
    loadOne p ch = match tierOf ch with
      | some t => p.push t ch.id
      | none => p := by
  unfold loadOne tierOf
  by_cases hk : ch.kind = ChannelKind.voice
  · rw [if_pos hk, if_pos hk]
    cases hl : ch.name.toList.getLast? with
    | none => rfl
    | some c => cases hb : by_identifier c <;> simp [hb]
  · rw [if_neg hk, if_neg hk]

/-- What the recording phase of the bootstrap puts in each tier's list:
the prior content followed by the ids of the scanned channels that
classify to that tier, in scan order. -/
theorem loadExisting_get (chs : List RChannel) : ∀ (p : Pool) (t : VoiceChannelType),
    (loadExisting p chs).get t =
      p.get t ++ (chs.filter (fun c => tierOf c == some t)).map RChannel.id := by
  induction chs with
  | nil =>
    intro p t
    simp [loadExisting]
  | cons c cs ih =>
    intro p t
    have hstep : loadExisting p (c :: cs) = loadExisting (loadOne p c) cs := rfl
    rw [hstep, ih, loadOne_eq]
    cases htc : tierOf c with
    | none =>
      rw [List.filter_cons_of_neg (by simp [htc])]
    | some t' =>
      by_cases htt : t' = t
      · subst htt
        rw [List.filter_cons_of_pos (by simp [htc]), List.map_cons,
          Pool.get_push_same, List.append_assoc, List.singleton_append]
      · rw [List.filter_cons_of_neg (by simp [htc, htt]),
          Pool.get_push_ne p (fun e => htt e)]

/-- The recording phase starting from the empty pool satisfies the pool
invariant, provided the scanned channels have duplicate-free ids below
the fresh-id counter. -/
theorem loadExisting_poolInv (chs : List RChannel) (n : Nat)
    (hlt : ∀ c ∈ chs, c.id < n)
    (hnd : (chs.map RChannel.id).Nodup) :
    PoolInv (loadExisting Pool.empty chs) n := by
  have hget : ∀ t, (loadExisting Pool.empty chs).get t =
      (chs.filter (fun c => tierOf c == some t)).map RChannel.id := by
    intro t
    rw [loadExisting_get, Pool.empty_get, List.nil_append]
  have hsubl : ∀ t, List.Sublist
      ((chs.filter (fun c => tierOf c == some t)).map RChannel.id)
      (chs.map RChannel.id) :=
    fun t => (List.filter_sublist chs).map RChannel.id
  refine ⟨?_, ?_, ?_⟩
  · intro t
    rw [hget]
    exact hnd.sublist (hsubl t)
  · intro t₁ t₂ hne id h1 h2
    rw [hget] at h1 h2
    obtain ⟨c₁, hc₁, hid₁⟩ := List.mem_map.mp h1
    obtain ⟨c₂, hc₂, hid₂⟩ := List.mem_map.mp h2
    obtain ⟨hc₁m, hc₁t⟩ := List.mem_filter.mp hc₁
    obtain ⟨hc₂m, hc₂t⟩ := List.mem_filter.mp hc₂
    have hceq : c₁ = c₂ :=
      List.inj_on_of_nodup_map hnd hc₁m hc₂m (hid₁.trans hid₂.symm)
    rw [beq_iff_eq] at hc₁t hc₂t
    exact hne (Option.some_inj.mp ((hc₁t.symm.trans (by rw [hceq])).trans hc₂t))
  · intro t id hid
    rw [hget] at hid
    obtain ⟨c, hc, hcid⟩ := List.mem_map.mp hid
    exact hcid ▸ hlt c (List.mem_of_mem_filter hc)

/-- The creation phase preserves the pool invariant (it only ever appends
the current fresh id). -/
theorem createMissing_poolInv (cat : Nat) (env : Env) (ts : List VoiceChannelType) :
    ∀ (p : Pool) (w : World) (acc : List Nat), PoolInv p w.nextId →
      PoolInv (createMissing cat env ts p w acc).1
        (createMissing cat env ts p w acc).2.1.nextId := by
  induction ts with
  | nil => exact fun p w acc h => h
  | cons t ts ih =>
    intro p w acc h
    rw [createMissing]
    by_cases he : (p.get t).isEmpty
    · rw [if_pos he]
      cases hcr : env.createOk with
      | true =>
        simp only [if_true]
        exact ih _ _ _ (poolInv_push_fresh h t)
      | false =>
        simp only [Bool.false_eq_true, if_false]
        exact h
    · rw [if_neg he]
      exact ih _ _ _ h

/-- Tier list lengths across the creation phase: lists never shrink, and
never grow beyond one entry unless they already had more. -/
theorem createMissing_len (cat : Nat) (env : Env) (ts : List VoiceChannelType) :
    ∀ (p : Pool) (w : World) (acc : List Nat) (t : VoiceChannelType),
      (p.get t).length ≤ ((createMissing cat env ts p w acc).1.get t).length ∧
      ((createMissing cat env ts p w acc).1.get t).length ≤ max 1 (p.get t).length := by
  induction ts with
  | nil => exact fun p w acc t => ⟨le_refl _, le_max_right _ _⟩
  | cons t' ts ih =>
    intro p w acc t
    rw [createMissing]
    by_cases he : (p.get t').isEmpty
    · rw [if_pos he]
      cases hcr : env.createOk with
      | true =>
        simp only [if_true, mkChannel_id]
        obtain ⟨hlo, hhi⟩ := ih (p.push t' w.nextId)
          ⟨w.channels ++ [mkChannel cat t' w.nextId], w.nextId + 1⟩ (acc ++ [w.nextId]) t
        rw [get_push_cases] at hlo hhi
        by_cases htt : t = t'
        · subst htt
          rw [if_pos rfl, List.length_append, List.length_singleton] at hlo hhi
          have hemp : (p.get t).length = 0 := by
            have h0 : p.get t = [] := List.isEmpty_iff.mp he
            rw [h0]
            rfl
          omega
        · rw [if_neg htt] at hlo hhi
          exact ⟨hlo, hhi⟩
      | false =>
        simp only [Bool.false_eq_true, if_false]
        exact ⟨le_refl _, le_max_right _ _⟩
    · rw [if_neg he]
      exact ih p w acc t

/-- After a creation phase that did not fail, every tier it was asked to
fill is non-empty. -/
theorem createMissing_nonempty (cat : Nat) (env : Env) (ts : List VoiceChannelType) :
    ∀ (p : Pool) (w : World) (acc : List Nat) (t : VoiceChannelType), t ∈ ts →
      (createMissing cat env ts p w acc).2.2.2 = false →
      1 ≤ ((createMissing cat env ts p w acc).1.get t).length := by
  induction ts with
  | nil => intro p w acc t ht; cases ht
  | cons t' ts ih =>
    intro p w acc t ht herr
    rw [createMissing] at herr ⊢
    by_cases he : (p.get t').isEmpty
    · rw [if_pos he] at herr ⊢
      cases hcr : env.createOk with
      | true =>
        rw [hcr] at herr
        rw [if_pos rfl] at herr
        rw [if_pos rfl]
        simp only [mkChannel_id] at herr ⊢
        rcases List.mem_cons.mp ht with he' | hts
        · have hlo := (createMissing_len cat env ts (p.push t' w.nextId)
            ⟨w.channels ++ [mkChannel cat t' w.nextId], w.nextId + 1⟩ (acc ++ [w.nextId]) t).1
          rw [get_push_cases, if_pos he', List.length_append, List.length_singleton] at hlo
          omega
        · exact ih _ _ _ t hts herr
      | false =>
        rw [hcr] at herr
        simp at herr
    · rw [if_neg he] at herr ⊢
      rcases List.mem_cons.mp ht with he' | hts
      · have h1 : 1 ≤ (p.get t).length := by
          rw [he']
          have h0 : p.get t' ≠ [] := fun hn => he (List.isEmpty_iff.mpr hn)
          have h2 := List.length_pos.mpr h0
          omega
        have hlo := (createMissing_len cat env ts p w acc t).1
        omega
      · exact ih _ _ _ t hts herr

/-- A successful bootstrap from the empty pool establishes the pool
invariant, leaves every tier non-empty, and bounds each tier's list by
the number of matching channels the container already held (or by 1). -/
theorem bootstrap_state (cat : Nat) (env : Env) (w : World)
    (hlt : ∀ c ∈ w.channels, c.id < w.nextId)
    (hnd : (w.channels.map RChannel.id).Nodup)
    (herr : (bootstrap cat env Pool.empty w).err = false) :
    PoolInv (bootstrap cat env Pool.empty w).pool
      (bootstrap cat env Pool.empty w).world.nextId ∧
    (∀ t, 1 ≤ ((bootstrap cat env Pool.empty w).pool.get t).length) ∧
    (∀ t, ((bootstrap cat env Pool.empty w).pool.get t).length ≤
      max 1 ((w.channels.filter (fun c => c.parent_id == some cat)).filter
        (fun c => tierOf c == some t)).length) := by
  cases hcat : w.find cat with
  | none => simp [bootstrap, hcat] at herr
  | some c0 =>
    cases hlok : env.listOk with
    | false => simp [bootstrap, hcat, hlok] at herr
    | true =>
      rcases hcm : createMissing cat env allTypes
          (loadExisting Pool.empty (w.channels.filter (fun c => c.parent_id == some cat)))
          w [] with ⟨p2, w2, created, failed⟩
      have hbody : bootstrap cat env Pool.empty w =
          (if failed then (⟨p2, w2, created, [], 0, true⟩ : Outcome)
           else ⟨p2, w2, created, [], 1, false⟩) := by
        simp only [bootstrap, hcat, hlok, if_true, hcm]
      cases failed with
      | true => rw [hbody] at herr; simp at herr
      | false =>
        rw [hbody]
        simp only [Bool.false_eq_true, if_false]
        have hlt1 : ∀ c ∈ w.channels.filter (fun c => c.parent_id == some cat),
            c.id < w.nextId := fun c hc => hlt c (List.mem_of_mem_filter hc)
        have hnd1 : ((w.channels.filter (fun c => c.parent_id == some cat)).map
            RChannel.id).Nodup := hnd.sublist ((List.filter_sublist _).map _)
        have hinv1 : PoolInv
            (loadExisting Pool.empty (w.channels.filter (fun c => c.parent_id == some cat)))
            w.nextId := loadExisting_poolInv _ _ hlt1 hnd1
        have hinv2 := createMissing_poolInv cat env allTypes _ w [] hinv1
        rw [hcm] at hinv2
        have hall : ∀ t : VoiceChannelType, t ∈ allTypes := by
          intro t
          cases t <;> simp [allTypes]
        refine ⟨hinv2, ?_, ?_⟩
        · intro t
          have h1 := createMissing_nonempty cat env allTypes
            (loadExisting Pool.empty (w.channels.filter (fun c => c.parent_id == some cat)))
            w [] t (hall t) (by rw [hcm])
          rw [hcm] at h1
          exact h1
        · intro t
          have h2 := (createMissing_len cat env allTypes
            (loadExisting Pool.empty (w.channels.filter (fun c => c.parent_id == some cat)))
            w [] t).2
          rw [hcm] at h2
          rw [loadExisting_get, Pool.empty_get, List.nil_append, List.length_map] at h2
          exact h2

/-! Claim C9: a channel id is tracked by at most one tier, at most once. -/

/-- Claim C9: starting from a successful bootstrap on a well-formed
remote guild (duplicate-free channel ids, all below the fresh-id
counter), after any sequence of join, leave and occupancy events, every
tier's list is duplicate-free and no id appears under two tiers. -/
theorem pool_refs_unique (cat : Nat) (env : Env) (w : World) (evs : List Ev)
    (hlt : ∀ c ∈ w.channels, c.id < w.nextId)
    (hnd : (w.channels.map RChannel.id).Nodup)
    (herr : (bootstrap cat env Pool.empty w).err = false) :
    (∀ t, (((runEvs cat ((bootstrap cat env Pool.empty w).pool,
        (bootstrap cat env Pool.empty w).world) evs).1).get t).Nodup) ∧
    (∀ t₁ t₂, t₁ ≠ t₂ → ∀ id,
      id ∈ ((runEvs cat ((bootstrap cat env Pool.empty w).pool,
        (bootstrap cat env Pool.empty w).world) evs).1).get t₁ →
      id ∉ ((runEvs cat ((bootstrap cat env Pool.empty w).pool,
        (bootstrap cat env Pool.empty w).world) evs).1).get t₂) := by
  have hinv := (bootstrap_state cat env w hlt hnd herr).1
  have hrun := runEvs_poolInv cat evs
    ((bootstrap cat env Pool.empty w).pool, (bootstrap cat env Pool.empty w).world) hinv
  exact ⟨hrun.1, hrun.2.1⟩

/-- Witness for claim C9 at a concrete input: an otherwise empty guild
with container id 9, followed by one join event on the freshly created
tier-2 channel. -/
theorem pool_refs_unique_witness :
    (∀ c ∈ (⟨[⟨9, "cat", .text, none, none, some []⟩], 100⟩ : World).channels, c.id < 100) ∧
    (((⟨[⟨9, "cat", .text, none, none, some []⟩], 100⟩ : World).channels.map
      RChannel.id).Nodup) ∧
    ((bootstrap 9 Env.ok Pool.empty ⟨[⟨9, "cat", .text, none, none, some []⟩], 100⟩).err =
      false) ∧
    ((∀ t, (((runEvs 9 ((bootstrap 9 Env.ok Pool.empty
        ⟨[⟨9, "cat", .text, none, none, some []⟩], 100⟩).pool,
        (bootstrap 9 Env.ok Pool.empty
        ⟨[⟨9, "cat", .text, none, none, some []⟩], 100⟩).world)
        [Ev.join Env.ok 101]).1).get t).Nodup) ∧
    (∀ t₁ t₂, t₁ ≠ t₂ → ∀ id,
      id ∈ ((runEvs 9 ((bootstrap 9 Env.ok Pool.empty
        ⟨[⟨9, "cat", .text, none, none, some []⟩], 100⟩).pool,
        (bootstrap 9 Env.ok Pool.empty
        ⟨[⟨9, "cat", .text, none, none, some []⟩], 100⟩).world)
        [Ev.join Env.ok 101]).1).get t₁ →
      id ∉ ((runEvs 9 ((bootstrap 9 Env.ok Pool.empty
        ⟨[⟨9, "cat", .text, none, none, some []⟩], 100⟩).pool,
        (bootstrap 9 Env.ok Pool.empty
        ⟨[⟨9, "cat", .text, none, none, some []⟩], 100⟩).world)
        [Ev.join Env.ok 101]).1).get t₂)) :=
  ⟨by decide, by decide, by decide,
    pool_refs_unique 9 Env.ok ⟨[⟨9, "cat", .text, none, none, some []⟩], 100⟩
      [Ev.join Env.ok 101] (by decide) (by decide) (by decide)⟩

/-! Claim C1: tier list length bounds. -/

/-- Counterexample to claim C1: a container already holding seven tier-2
voice channels.  The bootstrap succeeds (so this is a pool state produced
by a successful `initialize`) and, with no events at all, the tier-2 list
has length 7 > 6: the bootstrap enforces no upper bound, only scale-up
does. -/
theorem claim_c1_counterexample :
    (bootstrap 9 Env.ok Pool.empty
      ⟨[⟨9, "cat", .text, none, none, some []⟩,
        ⟨1, "🔊voice 2", .voice, some 9, some 2, some []⟩,
        ⟨2, "🔊voice 2", .voice, some 9, some 2, some []⟩,
        ⟨3, "🔊voice 2", .voice, some 9, some 2, some []⟩,
        ⟨4, "🔊voice 2", .voice, some 9, some 2, some []⟩,
        ⟨5, "🔊voice 2", .voice, some 9, some 2, some []⟩,
        ⟨6, "🔊voice 2", .voice, some 9, some 2, some []⟩,
        ⟨7, "🔊voice 2", .voice, some 9, some 2, some []⟩], 100⟩).err = false ∧
    (((runEvs 9 ((bootstrap 9 Env.ok Pool.empty
      ⟨[⟨9, "cat", .text, none, none, some []⟩,
        ⟨1, "🔊voice 2", .voice, some 9, some 2, some []⟩,
        ⟨2, "🔊voice 2", .voice, some 9, some 2, some []⟩,
        ⟨3, "🔊voice 2", .voice, some 9, some 2, some []⟩,
        ⟨4, "🔊voice 2", .voice, some 9, some 2, some []⟩,
        ⟨5, "🔊voice 2", .voice, some 9, some 2, some []⟩,
        ⟨6, "🔊voice 2", .voice, some 9, some 2, some []⟩,
        ⟨7, "🔊voice 2", .voice, some 9, some 2, some []⟩], 100⟩).pool,
      (bootstrap 9 Env.ok Pool.empty
      ⟨[⟨9, "cat", .text, none, none, some []⟩,
        ⟨1, "🔊voice 2", .voice, some 9, some 2, some []⟩,
        ⟨2, "🔊voice 2", .voice, some 9, some 2, some []⟩,
        ⟨3, "🔊voice 2", .voice, some 9, some 2, some []⟩,
        ⟨4, "🔊voice 2", .voice, some 9, some 2, some []⟩,
        ⟨5, "🔊voice 2", .voice, some 9, some 2, some []⟩,
        ⟨6, "🔊voice 2", .voice, some 9, some 2, some []⟩,
        ⟨7, "🔊voice 2", .voice, some 9, some 2, some []⟩], 100⟩).world) []).1).get
      .Two).length = 7 := by
  decide

/-- Claim C1 as amended: starting from a successful bootstrap on a
well-formed guild whose container holds at most 6 managed channels per
tier, after any sequence of join, leave and occupancy events every
tier's list has between 1 and 6 entries.  (Without the cap on the
initial container the upper bound is false, as the counterexample
shows; the lower bound needs no extra hypothesis.) -/
theorem pool_size_bounds (cat : Nat) (env : Env) (w : World) (evs : List Ev)
    (hlt : ∀ c ∈ w.channels, c.id < w.nextId)
    (hnd : (w.channels.map RChannel.id).Nodup)
    (herr : (bootstrap cat env Pool.empty w).err = false)
    (hcap : ∀ t, ((w.channels.filter (fun c => c.parent_id == some cat)).filter
        (fun c => tierOf c == some t)).length ≤ 6) :
    ∀ t, 1 ≤ (((runEvs cat ((bootstrap cat env Pool.empty w).pool,
        (bootstrap cat env Pool.empty w).world) evs).1).get t).length ∧
      (((runEvs cat ((bootstrap cat env Pool.empty w).pool,
        (bootstrap cat env Pool.empty w).world) evs).1).get t).length ≤ 6 := by
  obtain ⟨hinv, hlow, hup⟩ := bootstrap_state cat env w hlt hnd herr
  intro t
  refine runEvs_len_bounds cat evs _ hinv t (hlow t) (le_trans (hup t) ?_)
  have hc := hcap t
  omega

/-- Witness for the amended claim C1 at a concrete input: an otherwise
empty guild with container id 9, followed by one join event on the
freshly created tier-2 channel. -/
theorem pool_size_bounds_witness :
    (∀ c ∈ (⟨[⟨9, "cat", .text, none, none, some []⟩], 100⟩ : World).channels, c.id < 100) ∧
    (((⟨[⟨9, "cat", .text, none, none, some []⟩], 100⟩ : World).channels.map
      RChannel.id).Nodup) ∧
    ((bootstrap 9 Env.ok Pool.empty ⟨[⟨9, "cat", .text, none, none, some []⟩], 100⟩).err =
      false) ∧
    (∀ t : VoiceChannelType,
      (((⟨[⟨9, "cat", .text, none, none, some []⟩], 100⟩ : World).channels.filter
        (fun c => c.parent_id == some 9)).filter
        (fun c => tierOf c == some t)).length ≤ 6) ∧
    (∀ t, 1 ≤ (((runEvs 9 ((bootstrap 9 Env.ok Pool.empty
        ⟨[⟨9, "cat", .text, none, none, some []⟩], 100⟩).pool,
        (bootstrap 9 Env.ok Pool.empty
        ⟨[⟨9, "cat", .text, none, none, some []⟩], 100⟩).world)
        [Ev.join Env.ok 101]).1).get t).length ∧
      (((runEvs 9 ((bootstrap 9 Env.ok Pool.empty
        ⟨[⟨9, "cat", .text, none, none, some []⟩], 100⟩).pool,
        (bootstrap 9 Env.ok Pool.empty
        ⟨[⟨9, "cat", .text, none, none, some []⟩], 100⟩).world)
        [Ev.join Env.ok 101]).1).get t).length ≤ 6) :=
  ⟨by decide, by decide, by decide, by decide,
    pool_size_bounds 9 Env.ok ⟨[⟨9, "cat", .text, none, none, some []⟩], 100⟩
      [Ev.join Env.ok 101] (by decide) (by decide) (by decide) (by decide)⟩

end BackstubenBot
